import Mathlib

/-!
Verification development for the LaTeX exam-generator front end
(`src/App.tsx`).  The stateful React component is embedded shallowly:

* JS strings are modelled as `String` / `List Char`;
* the component's `useState` cells become the fields of `AppState`;
* event handlers become pure transition functions on `AppState`;
* the asynchronous generation pipeline (`handleGenerate`) is modelled as a
  run-to-completion function parameterised by an environment `Env` that
  supplies the outcome of each external suspension point (per-file base64
  encoding, the single outbound model call);
* outbound calls are observed through an instrumentation log `callLog`;
* the preview-resource lifecycle (object URLs plus the `useEffect` cleanup)
  becomes an explicit small-step machine `pmStep` whose revocations are
  logged.

`types.ts` is not part of the sources; the pieces of it that the component
imports (`ExamDifficulty`, `getLatexTemplate`) are modelled from the spec.
-/

namespace ExamApp

/-- Characters treated as whitespace by the JavaScript runtime in
`String.prototype.trim` and in the leading-whitespace skip of `parseInt`
(restricted to the ASCII whitespace characters). -/
def jsWs (c : Char) : Bool :=
  c = ' ' || c = '\t' || c = '\n' || c = '\r' || c = '\x0b' || c = '\x0c'

/-- JS `String.prototype.trim` on a character list: drop whitespace from the
front, then from the back. -/
def trimChars (s : List Char) : List Char :=
  ((s.dropWhile jsWs).reverse.dropWhile jsWs).reverse

/-- Decimal digit run at the front of a character list, as a number; `none`
when the run is empty (JS `parseInt` returning `NaN`). -/
def digitsVal (cs : List Char) : Option Nat :=
  let ds := cs.takeWhile Char.isDigit
  if ds.isEmpty then none
  else some (ds.foldl (fun a c => a * 10 + (c.toNat - 48)) 0)

/-- JS `parseInt(s)` (radix 10, as applied to the values a number input
produces): skip leading whitespace, read an optional sign and then the
longest run of decimal digits; `none` models `NaN`. -/
def jsParseInt (s : String) : Option Int :=
  let cs := s.data.dropWhile jsWs
  match cs with
  | '-' :: rest => (digitsVal rest).map (fun n => -(n : Int))
  | '+' :: rest => (digitsVal rest).map (fun n => (n : Int))
  | _ => (digitsVal cs).map (fun n => (n : Int))

/-- JS `x || 0` applied to the result of `parseInt`: `NaN` (here `none`)
and the falsy number `0` both yield `0`, every other number is kept. -/
def jsOrZero (o : Option Int) : Int :=
  match o with
  | none => 0
  | some v => if v = 0 then 0 else v

/-- The opening marker of a bare fenced code block. -/
def fence : List Char := "```".data

/-- The opening marker of a fenced code block with the `latex` hint. -/
def fenceLatex : List Char := "```latex".data

/-- `replace(/```$/, '')`: remove one trailing closing marker if present
(`App.tsx` lines 175 and 177). -/
def stripClosing (t : List Char) : List Char :=
  if fence.isSuffixOf t then t.take (t.length - fence.length) else t

/-- The fence-stripping conditional of `handleGenerate`
(`App.tsx` lines 174-178): strip a leading ` ```latex ` marker, else a
leading bare ` ``` ` marker, in either case also a trailing closing marker;
otherwise leave the text alone. -/
def stripFences (s : List Char) : List Char :=
  if fenceLatex.isPrefixOf s then stripClosing (s.drop fenceLatex.length)
  else if fence.isPrefixOf s then stripClosing (s.drop fence.length)
  else s

/-- The response sanitizer on character lists: the fence-stripping
conditional followed by the final `.trim()` (`App.tsx` lines 172-180). -/
def sanitizeChars (s : List Char) : List Char :=
  trimChars (stripFences s)

/-- The response sanitizer on strings. -/
def sanitize (s : String) : String :=
  String.mk (sanitizeChars s.data)

/-- Modelled from the spec: `ExamDifficulty` is declared in the missing
`types.ts`; the spec gives it as `enum{EASY,MEDIUM,HARD}`. -/
inductive ExamDifficulty where
  | EASY
  | MEDIUM
  | HARD
deriving DecidableEq, Repr

/-- Modelled from the spec: the label text a difficulty value interpolates
into the prompt (the spec describes the enum only by these labels). -/
def difficultyLabel : ExamDifficulty → String
  | .EASY => "EASY"
  | .MEDIUM => "MEDIUM"
  | .HARD => "HARD"

/-- Modelled from the spec: `getLatexTemplate` lives in the missing
`types.ts`; the spec says it supplies one fixed, opaque scaffold string per
output language. -/
def getLatexTemplate (language : String) : String :=
  if language = "vi" then "TEMPLATE-VI" else "TEMPLATE-EN"

/-- The `ExamConfig` state value (`App.tsx` lines 6-15). -/
structure ExamConfig where
  topic : String
  grade : String
  difficulty : ExamDifficulty
  numMultipleChoice : Int
  numEssay : Int
  useTikz : Bool
  varyData : Bool
  language : String
deriving DecidableEq, Repr

/-- The initial configuration (`App.tsx` lines 6-15). -/
def initialConfig : ExamConfig :=
  { topic := ""
    grade := "6"
    difficulty := .MEDIUM
    numMultipleChoice := 10
    numEssay := 2
    useTikz := true
    varyData := false
    language := "vi" }

/-- The `onChange` handler of the multiple-choice count input
(`App.tsx` line 351): `parseInt(e.target.value) || 0`, no further clamp. -/
def setNumMultipleChoice (cfg : ExamConfig) (entry : String) : ExamConfig :=
  { cfg with numMultipleChoice := jsOrZero (jsParseInt entry) }

/-- The `onChange` handler of the essay count input (`App.tsx` line 366):
`parseInt(e.target.value) || 0`, no further clamp. -/
def setNumEssay (cfg : ExamConfig) (entry : String) : ExamConfig :=
  { cfg with numEssay := jsOrZero (jsParseInt entry) }

/-- A browser `File` handle: display name, declared MIME type and opaque
binary content (the content is only ever read through the environment's
encoder, mirroring `FileReader`). -/
structure JSFile where
  name : String
  type : String
  content : String
deriving DecidableEq, Repr

/-- One part of the outbound multi-part payload (`App.tsx` lines 152-162):
either the instruction text or an `inlineData` attachment entry. -/
inductive Part where
  | text (s : String)
  | inlineData (mimeType : String) (data : String)
deriving DecidableEq, Repr

/-- Outcomes of the two external suspension points of `handleGenerate`:
`encode` is `fileToBase64` (resolving to a base64 payload or rejecting),
`call` is `ai.models.generateContent` (failing, or returning a response
whose `.text` may be absent). -/
structure Env where
  encode : JSFile → Except String String
  call : List Part → Except String (Option String)

/-- The component's state cells (`App.tsx` lines 6-24) plus an
instrumentation log of the outbound calls issued. -/
structure AppState where
  config : ExamConfig
  files : List JSFile
  isDragging : Bool
  generatedCode : String
  isLoading : Bool
  error : Option String
  callLog : List (List Part)
deriving Repr

/-- The initial component state. -/
def initialState : AppState :=
  { config := initialConfig
    files := []
    isDragging := false
    generatedCode := ""
    isLoading := false
    error := none
    callLog := [] }

/-- MIME filter applied to dropped files (`App.tsx` lines 58-60):
`file.type === 'application/pdf' || file.type.startsWith('image/')`. -/
def isAllowedFile (f : JSFile) : Bool :=
  f.type = "application/pdf" || "image/".data.isPrefixOf f.type.data

/-- `handleFileChange` (`App.tsx` lines 37-42): append all chosen files,
with no MIME filter of its own. -/
def handleFileChange (s : AppState) (chosen : List JSFile) : AppState :=
  if chosen.isEmpty then s
  else { s with files := s.files ++ chosen }

/-- `onDrop` (`App.tsx` lines 54-63): stop dragging, keep only the dropped
files whose declared type passes `isAllowedFile`, append them. -/
def onDrop (s : AppState) (dropped : List JSFile) : AppState :=
  let s' := { s with isDragging := false }
  if dropped.isEmpty then s'
  else { s' with files := s'.files ++ dropped.filter isAllowedFile }

/-- JS `prev.filter((_, index) => index !== indexToRemove)`: filter with the
element index, counting from `n`. -/
def filterIdxFrom (p : Nat → Bool) : Nat → List α → List α
  | _, [] => []
  | n, a :: as =>
    if p n then a :: filterIdxFrom p (n + 1) as else filterIdxFrom p (n + 1) as

/-- `removeFile` (`App.tsx` lines 65-67): keep every element whose position
differs from `indexToRemove`. -/
def removeFile (indexToRemove : Nat) (l : List JSFile) : List JSFile :=
  filterIdxFrom (fun idx => idx ≠ indexToRemove) 0 l

/-- The `removeFile` click handler acting on the component state. -/
def removeFileState (s : AppState) (indexToRemove : Nat) : AppState :=
  { s with files := removeFile indexToRemove s.files }

/-- The fixed Vietnamese validation message (`App.tsx` line 97). -/
def validationMsg : String :=
  "Vui lòng nhập chủ đề kiểm tra hoặc tải lên tài liệu."

/-- `err.message || 'Đã có lỗi xảy ra khi tạo đề.'` (`App.tsx` line 182):
an absent or empty message falls back to the fixed Vietnamese text. -/
def errMessage (e : String) : String :=
  if e = "" then "Đã có lỗi xảy ra khi tạo đề." else e

/-- The instruction text assembled by `handleGenerate`
(`App.tsx` lines 109-150).  The fixed literal fragments of the template
string are abbreviated to short opaque constants (their exact wording
carries no behaviour); the interpolation structure — which fragments are
selected, and which configuration values flow in where — follows the
source. -/
def buildPrompt (config : ExamConfig) (fileCount : Nat) : String :=
  "ROLE-HEADER\n"
  ++ (if fileCount > 0 then "ATTACHED " ++ toString fileCount ++ "\n" else "\n")
  ++ (if config.varyData then "VARY-DATA\n" else "PRESERVE-DATA\n")
  ++ "OUTPUT-LANG " ++ (if config.language = "vi" then "VI" else "EN") ++ "\n"
  ++ (if config.language = "en" then "TRANSLATE-EN\n" else "\n")
  ++ "TOPIC " ++ (if config.topic = "" then "FROM-ATTACHMENTS" else config.topic) ++ "\n"
  ++ "GRADE " ++ config.grade ++ "\n"
  ++ "DIFFICULTY " ++ difficultyLabel config.difficulty ++ "\n"
  ++ "MC " ++ toString config.numMultipleChoice
  ++ " ESSAY " ++ toString config.numEssay ++ "\n"
  ++ "MATH-REQS\n"
  ++ (if config.useTikz then "TIKZ\n" else "PLACEHOLDER-IMAGE\n")
  ++ "CODE-REQS\n"
  ++ "TEMPLATE " ++ (if config.language = "vi" then "VI" else "EN") ++ "\n"
  ++ getLatexTemplate config.language

/-- The sequential `for (const file of files) await fileToBase64(file)` loop
(`App.tsx` lines 154-162): encode each file in order; the first rejection
aborts the whole run (the exception propagates to the `catch`). -/
def encodeAll (env : Env) : List JSFile → Except String (List String)
  | [] => .ok []
  | f :: fs =>
    match env.encode f with
    | .error e => .error e
    | .ok d =>
      match encodeAll env fs with
      | .error e => .error e
      | .ok ds => .ok (d :: ds)

/-- The tail of `handleGenerate` after the call returns
(`App.tsx` lines 172-185): a rejected call falls to the `catch`
(`finally` still clears the busy flag); a response has its text (missing
text read as `''`) sanitized and published. -/
def applyCallResult (s₂ : AppState) (res : Except String (Option String)) : AppState :=
  match res with
  | .error e => { s₂ with error := some (errMessage e), isLoading := false }
  | .ok t => { s₂ with generatedCode := sanitize (t.getD ""), isLoading := false }

/-- `handleGenerate` (`App.tsx` lines 95-186), modelled as a
run-to-completion transition: validation guard, busy/clear prologue,
sequential attachment encoding, one outbound call, sanitization of the
response, with the `catch`/`finally` collapse of all failures. -/
def handleGenerate (env : Env) (s : AppState) : AppState :=
  if s.config.topic = "" ∧ s.files = [] then
    { s with error := some validationMsg }
  else
    let s₁ := { s with isLoading := true, error := none, generatedCode := "" }
    match encodeAll env s.files with
    | .error e => { s₁ with error := some (errMessage e), isLoading := false }
    | .ok ds =>
      let parts :=
        Part.text (buildPrompt s.config s.files.length)
          :: (s.files.zip ds).map (fun fd => Part.inlineData fd.1.type fd.2)
      let s₂ := { s₁ with callLog := s₁.callLog ++ [parts] }
      applyCallResult s₂ (env.call parts)

/-- The generate button (`App.tsx` lines 407-409): `disabled={isLoading}`,
so a click while a request is in flight does nothing. -/
def clickGenerate (env : Env) (s : AppState) : AppState :=
  if s.isLoading then s else handleGenerate env s

/-- The classification of a preview (`App.tsx` line 71):
`file.type === 'application/pdf' ? 'pdf' : 'image'`. -/
inductive PrevKind where
  | pdf
  | image
deriving DecidableEq, Repr

/-- The `previewFile` state value (`App.tsx` line 24): an object URL
(identified here by the number the URL factory issued), the classified
kind, and the file name. -/
structure PreviewRes where
  url : Nat
  kind : PrevKind
  name : String
deriving DecidableEq, Repr

/-- The preview lifecycle state: the `previewFile` cell, the `previewFile`
value captured by the cleanup closure of the currently registered
`useEffect` instance (`App.tsx` lines 29-35), the log of
`URL.revokeObjectURL` calls (by url number, in order), and the next fresh
url number `URL.createObjectURL` will issue. -/
structure PMState where
  previewFile : Option PreviewRes
  cleanupCapture : Option PreviewRes
  revoked : List Nat
  nextUrl : Nat
deriving DecidableEq, Repr

/-- The initial preview state (no preview, effect registered over `null`). -/
def pmInit : PMState :=
  { previewFile := none, cleanupCapture := none, revoked := [], nextUrl := 0 }

/-- React's handling of the `[previewFile]` effect after `previewFile`
changes: run the cleanup of the previous effect instance — which revokes
the url it captured, if any (`App.tsx` lines 30-34) — then register the new
cleanup capturing the current `previewFile`. -/
def runEffect (s : PMState) : PMState :=
  { s with
    revoked :=
      match s.cleanupCapture with
      | some r => s.revoked ++ [r.url]
      | none => s.revoked
    cleanupCapture := s.previewFile }

/-- `handlePreview` (`App.tsx` lines 69-73): create an object URL, classify
the kind by MIME type, store the new preview; the effect then fires. -/
def handlePreview (f : JSFile) (s : PMState) : PMState :=
  let r : PreviewRes :=
    { url := s.nextUrl
      kind := if f.type = "application/pdf" then .pdf else .image
      name := f.name }
  runEffect { s with previewFile := some r, nextUrl := s.nextUrl + 1 }

/-- `closePreview` (`App.tsx` lines 75-80): if a preview is live, revoke its
url directly and clear the cell; the effect then fires (and its cleanup,
which captured the same preview, revokes the url again). -/
def closePreview (s : PMState) : PMState :=
  match s.previewFile with
  | none => s
  | some r =>
    runEffect { s with revoked := s.revoked ++ [r.url], previewFile := none }

/-- Component unmount: React runs the cleanup of the registered effect
instance one final time (`App.tsx` lines 29-35); the component's state
cells (`previewFile` among them) are destroyed with it. -/
def unmountPM (s : PMState) : PMState :=
  match s.cleanupCapture with
  | none => { s with previewFile := none }
  | some r =>
    { s with
      revoked := s.revoked ++ [r.url]
      cleanupCapture := none
      previewFile := none }

/-- The externally visible preview events. -/
inductive PMEvent where
  | openPrev (f : JSFile)
  | closePrev
  | unmount
deriving Repr

/-- One lifecycle step. -/
def pmStep (s : PMState) : PMEvent → PMState
  | .openPrev f => handlePreview f s
  | .closePrev => closePreview s
  | .unmount => unmountPM s

/-- A whole event trace from the initial state. -/
def pmRun (es : List PMEvent) : PMState :=
  es.foldl pmStep pmInit

/-! ### Concrete fixtures used by witnesses and counterexamples -/

/-- A sample image attachment. -/
def filePng : JSFile := { name := "a.png", type := "image/png", content := "PNGDATA" }

/-- A sample PDF attachment. -/
def filePdf : JSFile := { name := "b.pdf", type := "application/pdf", content := "PDFDATA" }

/-- A sample attachment of a type outside the accepted set. -/
def fileTxt : JSFile := { name := "c.txt", type := "text/plain", content := "TXTDATA" }

/-- An environment in which every encoding and the call succeed. -/
def envOk : Env :=
  { encode := fun f => .ok ("B64-" ++ f.name)
    call := fun _ => .ok (some "RESULT") }

/-- An environment in which encoding `b.pdf` fails and everything else
succeeds. -/
def envFailPdf : Env :=
  { encode := fun f => if f.name = "b.pdf" then .error "boom" else .ok ("B64-" ++ f.name)
    call := fun _ => .ok (some "RESULT") }

/-- A state with a request in flight and a non-empty topic. -/
def busyState : AppState :=
  { initialState with
    isLoading := true
    config := { initialConfig with topic := "T" } }

/-! ### Helper lemmas -/

lemma dropWhile_eq_self_of_isPrefix {p : Char → Bool} {R m : List Char}
    (hRm : R <+: m) (hm : m.dropWhile p = m) : R.dropWhile p = R := by
  cases R with
  | nil => simp
  | cons a as =>
    obtain ⟨t, ht⟩ := hRm
    have hpa : p a = false := by
      subst ht
      rw [List.cons_append, List.dropWhile_cons] at hm
      by_cases hp : p a = true
      · rw [if_pos hp] at hm
        have hlen := congrArg List.length hm
        rw [List.length_cons] at hlen
        have hle := (List.dropWhile_sublist (l := as ++ t) p).length_le
        omega
      · simpa using hp
    rw [List.dropWhile_cons, hpa]
    simp

lemma trimChars_idem (s : List Char) : trimChars (trimChars s) = trimChars s := by
  unfold trimChars
  set m := s.dropWhile jsWs with hm_def
  have hm : m.dropWhile jsWs = m := by
    simpa [hm_def] using List.dropWhile_idempotent jsWs s
  set R := (m.reverse.dropWhile jsWs).reverse with hR_def
  have hsub : R <+: m := by
    rw [← List.reverse_suffix]
    simpa [hR_def] using List.dropWhile_suffix (l := m.reverse) jsWs
  have hR : R.dropWhile jsWs = R := dropWhile_eq_self_of_isPrefix hsub hm
  rw [hR, hR_def, List.reverse_reverse, List.dropWhile_idempotent]

lemma isPrefixOf_append_left (a b y : List Char)
    (h : (a ++ b).isPrefixOf y = true) : a.isPrefixOf y = true := by
  induction a generalizing y with
  | nil => simp [List.isPrefixOf]
  | cons x xs ih =>
    cases y with
    | nil => simp [List.isPrefixOf] at h
    | cons z zs =>
      simp only [List.cons_append, List.isPrefixOf, Bool.and_eq_true] at h ⊢
      exact ⟨h.1, ih zs h.2⟩

lemma stripFences_eq_self {y : List Char}
    (h : fence.isPrefixOf y = false) : stripFences y = y := by
  have hlatex : fenceLatex.isPrefixOf y = false := by
    by_contra hc
    have htrue : fenceLatex.isPrefixOf y = true := by
      cases hres : fenceLatex.isPrefixOf y
      · exact absurd hres hc
      · rfl
    have hsplit : fenceLatex = fence ++ "latex".data := by decide
    rw [hsplit] at htrue
    rw [isPrefixOf_append_left _ _ _ htrue] at h
    cases h
  unfold stripFences
  rw [hlatex, h]
  simp

lemma encodeAll_ok_length (env : Env) :
    ∀ (fs : List JSFile) (ds : List String),
      encodeAll env fs = .ok ds → ds.length = fs.length := by
  intro fs
  induction fs with
  | nil =>
    intro ds h
    simp [encodeAll] at h
    simp [← h]
  | cons f fs ih =>
    intro ds h
    unfold encodeAll at h
    cases he : env.encode f with
    | error e => rw [he] at h; cases h
    | ok d =>
      rw [he] at h
      cases hr : encodeAll env fs with
      | error e => rw [hr] at h; cases h
      | ok ds' =>
        rw [hr] at h
        cases h
        simp [ih ds' hr]

lemma filterIdxFrom_small (l : List JSFile) :
    ∀ (n i : Nat), i < n →
      filterIdxFrom (fun idx => idx ≠ i) n l = l := by
  induction l with
  | nil => intro n i _; rfl
  | cons a as ih =>
    intro n i h
    simp only [filterIdxFrom]
    rw [if_pos (decide_eq_true (by omega : n ≠ i))]
    exact congrArg (List.cons a) (ih (n + 1) i (Nat.lt_succ_of_lt h))

lemma filterIdxFrom_eraseIdx (l : List JSFile) :
    ∀ (n i : Nat),
      filterIdxFrom (fun idx => idx ≠ (n + i)) n l = l.eraseIdx i := by
  induction l with
  | nil => intro n i; rfl
  | cons a as ih =>
    intro n i
    cases i with
    | zero =>
      simp only [filterIdxFrom]
      rw [if_neg (by simp : ¬ (decide (n ≠ n + 0) = true))]
      have hgoal := filterIdxFrom_small as (n + 1) (n + 0) (by omega)
      rw [hgoal]
      rfl
    | succ j =>
      simp only [filterIdxFrom]
      rw [if_pos (decide_eq_true (by omega : n ≠ n + (j + 1)))]
      have harg : n + (j + 1) = (n + 1) + j := by omega
      rw [harg]
      have := ih (n + 1) j
      rw [this]
      rfl

lemma removeFile_eq_eraseIdx (l : List JSFile) (i : Nat) :
    removeFile i l = l.eraseIdx i := by
  have := filterIdxFrom_eraseIdx l 0 i
  simpa [removeFile] using this

lemma applyCallResult_callLog (s₂ : AppState) (res : Except String (Option String)) :
    (applyCallResult s₂ res).callLog = s₂.callLog := by
  cases res <;> rfl

lemma pmStep_inv (s : PMState) (e : PMEvent)
    (h : s.cleanupCapture = s.previewFile) :
    (pmStep s e).cleanupCapture = (pmStep s e).previewFile := by
  cases e with
  | openPrev f => simp [pmStep, handlePreview, runEffect]
  | closePrev =>
    cases hp : s.previewFile with
    | none => simpa [pmStep, closePreview, hp] using h.trans hp
    | some r => simp [pmStep, closePreview, hp, runEffect]
  | unmount =>
    cases hc : s.cleanupCapture with
    | none => simp [pmStep, unmountPM, hc]
    | some r => simp [pmStep, unmountPM, hc]

/-- The declared MIME type carried by a payload part (the instruction part
carries none). -/
def partMime : Part → String
  | .text _ => ""
  | .inlineData m _ => m

/-- The encoded payload carried by a part. -/
def partData : Part → String
  | .text s => s
  | .inlineData _ d => d

/-- A state with the two sample attachments added in order. -/
def sAB : AppState := { initialState with files := [filePng, filePdf] }

/-- A state holding a previously published result. -/
def prevResultState : AppState := { initialState with generatedCode := "OLD" }

/-! ### Claim theorems -/

/-- C1 (counterexample): the claimed `[0,50]` range invariant fails at the
write boundary — the entry `"99"` is stored as `99`, which exceeds `50`
(the `min`/`max` input attributes are not enforced by the `onChange`
handler). -/
theorem c1_out_of_range_stored :
    (setNumMultipleChoice initialConfig "99").numMultipleChoice = 99 ∧
    ¬ ((setNumMultipleChoice initialConfig "99").numMultipleChoice ≤ 50) := by
  decide

/-- C1 (amended): the write boundary stores `parseInt(entry) || 0`
unchanged — in particular every non-numeric entry (for instance the empty
string) is stored as `0`, never as `NaN` or the previous value — but no
range clamp is applied there. -/
theorem c1_store_parse_or_zero :
    ∀ (cfg : ExamConfig) (entry : String),
      (setNumMultipleChoice cfg entry).numMultipleChoice = jsOrZero (jsParseInt entry) ∧
      (setNumEssay cfg entry).numEssay = jsOrZero (jsParseInt entry) ∧
      (jsParseInt entry = none →
        (setNumMultipleChoice cfg entry).numMultipleChoice = 0 ∧
        (setNumEssay cfg entry).numEssay = 0) := by
  intro cfg entry
  refine ⟨rfl, rfl, fun h => ?_⟩
  constructor <;> simp [setNumMultipleChoice, setNumEssay, h, jsOrZero]

/-- C1 (witness): the empty entry parses to `NaN` and both counts are
stored as `0`. -/
theorem c1_store_parse_or_zero_w :
    (setNumMultipleChoice initialConfig "").numMultipleChoice = 0 ∧
    (setNumEssay initialConfig "").numEssay = 0 :=
  (c1_store_parse_or_zero initialConfig "").2.2 (by decide)

/-- C2 (counterexample): the sanitizer is not idempotent — on the input
consisting of a space followed by three backticks, one pass trims the text
to a bare opening fence and a second pass then strips it away. -/
theorem c2_not_idempotent :
    sanitize (sanitize " ```") ≠ sanitize " ```" := by
  decide

/-- C2 (amended): the sanitizer is idempotent on every input whose
sanitized form does not itself begin with a fence marker (the failures come
only from a fence that re-emerges at the front after the final trim). -/
theorem c2_idempotent_unless_fence_reemerges :
    ∀ (x : String), fence.isPrefixOf (sanitize x).data = false →
      sanitize (sanitize x) = sanitize x := by
  intro x h
  have h' : fence.isPrefixOf (sanitizeChars x.data) = false := h
  have h2 : sanitizeChars (sanitizeChars x.data) = sanitizeChars x.data := by
    rw [sanitizeChars, stripFences_eq_self h']
    rw [sanitizeChars]
    exact trimChars_idem _
  show String.mk (sanitizeChars (sanitizeChars x.data)) = String.mk (sanitizeChars x.data)
  exact congrArg String.mk h2

/-- C2 (witness): a well-formed fenced response sanitizes to plain text,
and re-sanitizing it changes nothing. -/
theorem c2_idempotent_unless_fence_reemerges_w :
    sanitize (sanitize "```latex\nX\n```") = sanitize "```latex\nX\n```" :=
  c2_idempotent_unless_fence_reemerges "```latex\nX\n```" (by decide)

/-- C3 (counterexample): closing a preview does not release its resource
exactly once — the trace open-then-close revokes object URL `0` twice,
once directly in `closePreview` and once more by the effect cleanup that
captured the same preview. -/
theorem c3_close_double_release :
    (pmRun [PMEvent.openPrev filePng]).previewFile =
      some { url := 0, kind := .image, name := "a.png" } ∧
    (pmRun [PMEvent.openPrev filePng, PMEvent.closePrev]).revoked = [0, 0] := by
  decide

/-- C3 (amended): along every trace the registered cleanup tracks the live
preview; from any consistent state with a live resource, opening a new
preview releases the previous resource exactly once (upon installing the
new one) and installs the freshly created resource, tearing the owner down
releases the live resource exactly once (no leak), but closing releases it
twice (directly and again via the owner's cleanup hook) rather than
exactly once. -/
theorem c3_release_discipline :
    (∀ es : List PMEvent,
      (pmRun es).cleanupCapture = (pmRun es).previewFile) ∧
    (∀ (s : PMState) (r : PreviewRes),
      s.cleanupCapture = s.previewFile → s.previewFile = some r →
        (∀ f : JSFile,
          (pmStep s (PMEvent.openPrev f)).revoked = s.revoked ++ [r.url] ∧
          (pmStep s (PMEvent.openPrev f)).previewFile =
            some { url := s.nextUrl
                   kind := if f.type = "application/pdf" then .pdf else .image
                   name := f.name }) ∧
        (pmStep s PMEvent.closePrev).revoked = (s.revoked ++ [r.url]) ++ [r.url] ∧
        (pmStep s PMEvent.unmount).revoked = s.revoked ++ [r.url] ∧
        (pmStep s PMEvent.unmount).previewFile = none) := by
  constructor
  · intro es
    suffices h : ∀ (s : PMState), s.cleanupCapture = s.previewFile →
        (es.foldl pmStep s).cleanupCapture = (es.foldl pmStep s).previewFile by
      exact h pmInit rfl
    induction es with
    | nil => intro s hs; exact hs
    | cons e es ih =>
      intro s hs
      exact ih (pmStep s e) (pmStep_inv s e hs)
  · intro s r hcap hr
    have hcap' : s.cleanupCapture = some r := hcap.trans hr
    refine ⟨fun f => ⟨?_, ?_⟩, ?_, ?_, ?_⟩
    · simp [pmStep, handlePreview, runEffect, hcap']
    · simp [pmStep, handlePreview, runEffect]
    · simp [pmStep, closePreview, hr, runEffect, hcap']
    · simp [pmStep, unmountPM, hcap']
    · simp [pmStep, unmountPM, hcap']

/-- C3 (witness): after opening the sample image, the state is consistent
and closing appends two revocations of its URL. -/
theorem c3_release_discipline_w :
    (pmStep (pmRun [PMEvent.openPrev filePng]) PMEvent.closePrev).revoked =
      ((pmRun [PMEvent.openPrev filePng]).revoked ++ [0]) ++ [0] :=
  (c3_release_discipline.2 (pmRun [PMEvent.openPrev filePng])
    { url := 0, kind := .image, name := "a.png" }
    (by decide) (by decide)).2.1

/-- C4 (counterexample): the pipeline entry has no busy guard — invoked
directly in a state with a request already in flight (`isLoading = true`),
`handleGenerate` proceeds and issues one more outbound call. -/
theorem c4_no_pipeline_guard :
    busyState.isLoading = true ∧
    (handleGenerate envOk busyState).callLog.length =
      busyState.callLog.length + 1 := by
  constructor
  · rfl
  · rfl

/-- C4 (amended): while a request is in flight, further submit attempts
are prevented only at the UI boundary — the generate button is disabled
while `isLoading`, so a click causes no state change and no additional
call; the pipeline itself performs no such check. -/
theorem c4_ui_guard_only :
    ∀ (env : Env) (s : AppState), s.isLoading = true →
      clickGenerate env s = s ∧ (clickGenerate env s).callLog = s.callLog := by
  intro env s h
  constructor <;> simp [clickGenerate, h]

/-- C4 (witness): a click in the busy sample state is a no-op. -/
theorem c4_ui_guard_only_w :
    clickGenerate envOk busyState = busyState ∧
    (clickGenerate envOk busyState).callLog = busyState.callLog :=
  c4_ui_guard_only envOk busyState rfl

/-- C5: with an empty topic and no attachments, submitting issues no
outbound call, surfaces the fixed validation message, and leaves the
busy flag (and the whole remaining state) unchanged. -/
theorem c5_validation_guard :
    ∀ (env : Env) (s : AppState), s.config.topic = "" → s.files = [] →
      handleGenerate env s = { s with error := some validationMsg } ∧
      (handleGenerate env s).callLog = s.callLog ∧
      (handleGenerate env s).isLoading = s.isLoading ∧
      (handleGenerate env s).error = some validationMsg := by
  intro env s h1 h2
  have hg : handleGenerate env s = { s with error := some validationMsg } := by
    unfold handleGenerate
    rw [if_pos ⟨h1, h2⟩]
  exact ⟨hg, by rw [hg], by rw [hg], by rw [hg]⟩

/-- C5 (witness): submitting from the initial state (empty topic, no
attachments) only records the validation error. -/
theorem c5_validation_guard_w :
    handleGenerate envOk initialState =
      { initialState with error := some validationMsg } ∧
    (handleGenerate envOk initialState).callLog = initialState.callLog ∧
    (handleGenerate envOk initialState).isLoading = initialState.isLoading ∧
    (handleGenerate envOk initialState).error = some validationMsg :=
  c5_validation_guard envOk initialState rfl rfl

/-- C6: if encoding any attachment fails, the submission fails as a unit —
the state carries the failure message, the busy flag is cleared, the
cleared output stays empty, and no outbound call (in particular no partial
payload) is issued. -/
theorem c6_encoding_failure_atomic :
    ∀ (env : Env) (s : AppState) (e : String),
      ¬ (s.config.topic = "" ∧ s.files = []) →
      encodeAll env s.files = .error e →
        (handleGenerate env s).callLog = s.callLog ∧
        (handleGenerate env s).error = some (errMessage e) ∧
        (handleGenerate env s).isLoading = false ∧
        (handleGenerate env s).generatedCode = "" := by
  intro env s e hg henc
  unfold handleGenerate
  rw [if_neg hg, henc]
  exact ⟨rfl, rfl, rfl, rfl⟩

/-- C6 (witness): with attachments A then B and the encoding of B failing,
the whole attempt fails and no call is logged. -/
theorem c6_encoding_failure_atomic_w :
    (handleGenerate envFailPdf sAB).callLog = sAB.callLog ∧
    (handleGenerate envFailPdf sAB).error = some (errMessage "boom") ∧
    (handleGenerate envFailPdf sAB).isLoading = false ∧
    (handleGenerate envFailPdf sAB).generatedCode = "" :=
  c6_encoding_failure_atomic envFailPdf sAB "boom" (by decide) (by rfl)

/-- C7: when every encoding succeeds, exactly one call is issued whose
payload is the instruction part followed by one `inlineData` part per
attachment; the MIME types of those parts list the attachments' declared
types in the order the attachments were added, and their data entries are
the encodings in that same order. -/
theorem c7_payload_order :
    ∀ (env : Env) (s : AppState) (ds : List String),
      ¬ (s.config.topic = "" ∧ s.files = []) →
      encodeAll env s.files = .ok ds →
        (handleGenerate env s).callLog =
          s.callLog ++
            [Part.text (buildPrompt s.config s.files.length) ::
              (s.files.zip ds).map (fun fd => Part.inlineData fd.1.type fd.2)] ∧
        ((s.files.zip ds).map (fun fd => Part.inlineData fd.1.type fd.2)).map partMime =
          s.files.map JSFile.type ∧
        ((s.files.zip ds).map (fun fd => Part.inlineData fd.1.type fd.2)).map partData =
          ds := by
  intro env s ds hg henc
  have hlen := encodeAll_ok_length env s.files ds henc
  refine ⟨?_, ?_, ?_⟩
  · unfold handleGenerate
    rw [if_neg hg, henc]
    rw [applyCallResult_callLog]
  · rw [List.map_map]
    have hfun : (partMime ∘ fun fd : JSFile × String => Part.inlineData fd.1.type fd.2) =
        (JSFile.type ∘ Prod.fst) := rfl
    rw [hfun, ← List.map_map]
    rw [List.map_fst_zip _ _ (by omega)]
  · rw [List.map_map]
    have hfun : (partData ∘ fun fd : JSFile × String => Part.inlineData fd.1.type fd.2) =
        (Prod.snd : JSFile × String → String) := rfl
    rw [hfun]
    exact List.map_snd_zip _ _ (by omega)

/-- C7 (witness): with attachments A then B both encoding successfully,
the logged call holds the instruction part followed by A's and B's parts
in that order. -/
theorem c7_payload_order_w :
    (handleGenerate envOk sAB).callLog =
      sAB.callLog ++
        [Part.text (buildPrompt sAB.config sAB.files.length) ::
          (sAB.files.zip ["B64-a.png", "B64-b.pdf"]).map
            (fun fd => Part.inlineData fd.1.type fd.2)] :=
  (c7_payload_order envOk sAB ["B64-a.png", "B64-b.pdf"] (by decide) (by rfl)).1

/-- C8 (counterexample): the file-picker ingestion path is not filtered —
`handleFileChange` stores a `text/plain` file, a type outside the accepted
set (only the input element's advisory `accept` attribute stands between
the picker and the store). -/
theorem c8_picker_unfiltered :
    (handleFileChange initialState [fileTxt]).files = [fileTxt] ∧
    isAllowedFile fileTxt = false := by
  decide

/-- C8 (amended): the drag-and-drop boundary admits exactly the dropped
files whose declared type is `application/pdf` or begins with `image/`
(so every file it adds to the store passes the filter), while the
file-picker handler appends whatever was chosen with no programmatic
filter. -/
theorem c8_drop_filtered_picker_not :
    ∀ (s : AppState) (dropped chosen : List JSFile),
      (onDrop s dropped).files = s.files ++ dropped.filter isAllowedFile ∧
      (∀ f ∈ (onDrop s dropped).files, f ∈ s.files ∨ isAllowedFile f = true) ∧
      (¬ chosen.isEmpty → (handleFileChange s chosen).files = s.files ++ chosen) := by
  intro s dropped chosen
  have h1 : (onDrop s dropped).files = s.files ++ dropped.filter isAllowedFile := by
    unfold onDrop
    by_cases hd : dropped.isEmpty
    · rw [if_pos hd]
      have hnil : dropped = [] := List.isEmpty_iff.mp hd
      simp [hnil]
    · rw [if_neg hd]
  refine ⟨h1, ?_, ?_⟩
  · intro f hf
    rw [h1, List.mem_append] at hf
    rcases hf with h | h
    · exact Or.inl h
    · exact Or.inr (List.mem_filter.mp h).2
  · intro hc
    unfold handleFileChange
    rw [if_neg hc]

/-- C8 (witness): dropping a text file together with an image admits only
the image, while picking the text file through the dialog stores it. -/
theorem c8_drop_filtered_picker_not_w :
    (onDrop initialState [fileTxt, filePng]).files =
      initialState.files ++ [fileTxt, filePng].filter isAllowedFile ∧
    (handleFileChange initialState [fileTxt]).files =
      initialState.files ++ [fileTxt] :=
  ⟨(c8_drop_filtered_picker_not initialState [fileTxt, filePng] [fileTxt]).1,
   (c8_drop_filtered_picker_not initialState [fileTxt, filePng] [fileTxt]).2.2
     (by decide)⟩

/-- C9: a submission rejected by the validation guard leaves the
previously published result text untouched — the output is cleared only
after the guard passes. -/
theorem c9_validation_preserves_output :
    ∀ (env : Env) (s : AppState), s.config.topic = "" → s.files = [] →
      (handleGenerate env s).generatedCode = s.generatedCode := by
  intro env s h1 h2
  unfold handleGenerate
  rw [if_pos ⟨h1, h2⟩]

/-- C9 (witness): from a state holding the earlier result `"OLD"`, a
rejected submission still shows `"OLD"`. -/
theorem c9_validation_preserves_output_w :
    (handleGenerate envOk prevResultState).generatedCode =
      prevResultState.generatedCode :=
  c9_validation_preserves_output envOk prevResultState rfl rfl

/-- C10: `removeFile` is total and safe — it agrees with positional
erasure, leaves the list unchanged on any index with no element, and on a
valid index removes exactly that element, keeping the relative order of
the rest. -/
theorem c10_removeFile_safe :
    ∀ (l : List JSFile) (i : Nat),
      removeFile i l = l.eraseIdx i ∧
      (l.length ≤ i → removeFile i l = l) ∧
      (i < l.length → removeFile i l = l.take i ++ l.drop (i + 1)) := by
  intro l i
  have h := removeFile_eq_eraseIdx l i
  refine ⟨h, fun hle => ?_, fun _ => ?_⟩
  · rw [h]
    exact List.eraseIdx_eq_self.mpr hle
  · rw [h]
    exact List.eraseIdx_eq_take_drop_succ l i

/-- C10 (witness): removing index 5 from a two-element list changes
nothing; removing index 1 from a three-element list removes exactly the
middle element. -/
theorem c10_removeFile_safe_w :
    removeFile 5 [filePng, filePdf] = [filePng, filePdf] ∧
    removeFile 1 [filePng, filePdf, fileTxt] =
      [filePng, filePdf, fileTxt].take 1 ++ [filePng, filePdf, fileTxt].drop 2 :=
  ⟨(c10_removeFile_safe [filePng, filePdf] 5).2.1 (by decide),
   (c10_removeFile_safe [filePng, filePdf, fileTxt] 1).2.2 (by decide)⟩

end ExamApp
